import Mathlib

/-!
Verification development for a small HTTP/1.1 server written in Rust
(`src/main.rs`, `src/endpoints.rs`).  The Rust code is shallowly embedded:

* strings are Lean `String`s, processed through their underlying `List Char`
  with structurally recursive helpers (so everything kernel-evaluates);
* the connection's byte stream is modelled as the request line and header
  lines that `BufRead::read_line` yields, followed by the bytes still held in
  the reader's internal buffer (a `List Nat` of byte values);
* `HashMap<String, String>` is modelled as an association list with
  last-write-wins insertion (only `get`/`insert` are used by the source);
* the JSON-file-backed store is the parsed list of records, passed in and out
  explicitly; `File::open`/`expect` panics on the store file itself are out of
  scope (the store is given already parsed);
* a Rust `panic!`/`expect` reachable from the modelled code (slice out of
  bounds, `.last().unwrap()` on an empty vector) is an `Option.none` result;
* external library behaviour (`serde_json`, `chrono`) is modelled from its
  documented semantics where the embedded code calls into it.
-/

/-! ### Generic character-list utilities

Rust `str` helpers (`split_whitespace`, `trim`, `splitn`, `split`,
`parse::<usize>`) re-implemented as structurally recursive functions over
`List Char` so they reduce in the kernel. -/

/-- Whitespace as recognised by Rust `char::is_whitespace`, restricted to the
ASCII range (the only characters the embedded requests use). -/
def isWsChar (c : Char) : Bool :=
  c = ' ' ∨ c = '\t' ∨ c = '\n' ∨ c = '\r' ∨ c = Char.ofNat 0x0B ∨ c = Char.ofNat 0x0C

/-- Split a character list on a predicate, keeping empty groups
(the analogue of Rust `str::split`). -/
def splitOnPred (p : Char → Bool) : List Char → List (List Char)
  | [] => [[]]
  | c :: cs =>
    if p c then [] :: splitOnPred p cs
    else
      match splitOnPred p cs with
      | [] => [[c]]
      | g :: gs => (c :: g) :: gs

/-- Rust `str::split_whitespace`: split on whitespace and drop empty groups. -/
def split_whitespace (s : String) : List String :=
  ((splitOnPred isWsChar s.data).filter (· ≠ [])).map String.mk

/-- Rust `str::split(sep)` for a single separator character. -/
def split_on_char (sep : Char) (s : String) : List String :=
  (splitOnPred (· = sep) s.data).map String.mk

def digitVal (c : Char) : Option Nat :=
  if '0' ≤ c ∧ c ≤ '9' then some (c.toNat - '0'.toNat) else none

def digitsToNatAux (acc : Nat) : List Nat → Nat
  | [] => acc
  | d :: ds => digitsToNatAux (acc * 10 + d) ds

def takeDigits : List Char → List Nat × List Char
  | [] => ([], [])
  | c :: cs =>
    match digitVal c with
    | some d =>
      match takeDigits cs with
      | (ds, rest) => (d :: ds, rest)
    | none => ([], c :: cs)

structure JNumber where
  mantissa : Int
  exp10 : Int
deriving DecidableEq

inductive Json where
  | null
  | bool (b : Bool)
  | num (isFloat : Bool) (v : JNumber)
  | str (s : String)
  | arr (elems : List Json)
  | obj (fields : List (String × Json))

def lbrace : Char := Char.ofNat 0x7B

def rbrace : Char := Char.ofNat 0x7D

/-- JSON insignificant whitespace (as accepted by serde_json). -/
def jsonSkipWs : List Char → List Char
  | [] => []
  | c :: cs =>
    if c = ' ' ∨ c = '\t' ∨ c = '\n' ∨ c = '\r' then jsonSkipWs cs else c :: cs

def hexVal (c : Char) : Option Nat :=
  if '0' ≤ c ∧ c ≤ '9' then some (c.toNat - '0'.toNat)
  else if 'a' ≤ c ∧ c ≤ 'f' then some (c.toNat - 'a'.toNat + 10)
  else if 'A' ≤ c ∧ c ≤ 'F' then some (c.toNat - 'A'.toNat + 10)
  else none

/-- Parse the remainder of a JSON string literal (the opening quote already
consumed); returns the unescaped contents and the input after the closing
quote.  `\uXXXX` escapes are decoded as single code units (surrogate-pair
combination is not modelled — no embedded input uses it). -/
def jsonParseString : Nat → List Char → Option (List Char × List Char)
  | 0, _ => none
  | _, [] => none
  | fuel + 1, c :: cs =>
    if c = '"' then some ([], cs)
    else if c = '\\' then
      match cs with
      | [] => none
      | e :: cs2 =>
        let dec : Option (Char × List Char) :=
          if e = '"' then some ('"', cs2)
          else if e = '\\' then some ('\\', cs2)
          else if e = '/' then some ('/', cs2)
          else if e = 'b' then some (Char.ofNat 8, cs2)
          else if e = 'f' then some (Char.ofNat 12, cs2)
          else if e = 'n' then some ('\n', cs2)
          else if e = 'r' then some ('\r', cs2)
          else if e = 't' then some ('\t', cs2)
          else if e = 'u' then
            match cs2 with
            | h1 :: h2 :: h3 :: h4 :: cs3 =>
              match hexVal h1, hexVal h2, hexVal h3, hexVal h4 with
              | some a, some b, some c3, some d =>
                some (Char.ofNat (a * 4096 + b * 256 + c3 * 16 + d), cs3)
              | _, _, _, _ => none
            | _ => none
          else none
        match dec with
        | some (ch, rest) =>
          match jsonParseString fuel rest with
          | some (s, rest2) => some (ch :: s, rest2)
          | none => none
        | none => none
    else if c.toNat < 0x20 then none
    else
      match jsonParseString fuel cs with
      | some (s, rest2) => some (c :: s, rest2)
      | none => none

/-- Parse a JSON number token (leading `-`, integer part with the no-leading-
zero rule, optional fraction and exponent).  Returns `(isFloat, value)` and
the rest of the input. -/
def jsonParseNumber (input : List Char) : Option ((Bool × JNumber) × List Char) :=
  let (neg, cs) :=
    match input with
    | '-' :: cs => (true, cs)
    | cs => (false, cs)
  match cs with
  | [] => none
  | c0 :: _ =>
    match (if c0 = '0' then some ([0], cs.drop 1) else
            match takeDigits cs with
            | ([], _) => none
            | (ds, rest) => some (ds, rest)) with
    | none => none
    | some (intDigits, afterInt) =>
      match (match afterInt with
             | '.' :: cs2 =>
               match takeDigits cs2 with
               | ([], _) => none
               | (ds, rest) => some (some ds, rest)
             | _ => some (none, afterInt)) with
      | none => none
      | some (fracDigits, afterFrac) =>
        let digits := intDigits ++ fracDigits.getD []
        let mantissa : Int :=
          (if neg then -1 else 1) * (digitsToNatAux 0 digits : Int)
        let fracLen : Int := (fracDigits.getD []).length
        match afterFrac with
        | 'e' :: cs3 | 'E' :: cs3 =>
          let (eneg, cs4) :=
            match cs3 with
            | '-' :: cs4 => (true, cs4)
            | '+' :: cs4 => (false, cs4)
            | cs4 => (false, cs4)
          match takeDigits cs4 with
          | ([], _) => none
          | (eds, rest) =>
            let e : Int := (if eneg then -1 else 1) * (digitsToNatAux 0 eds : Int)
            some ((true, ⟨mantissa, e - fracLen⟩), rest)
        | _ =>
          some ((fracDigits.isSome, ⟨mantissa, -fracLen⟩), afterFrac)

mutual

/-- Parse one JSON value (fuel-based; `2 * length + 4` fuel always suffices
because at least one character is consumed between nested calls). -/
def jsonParseVal : Nat → List Char → Option (Json × List Char)
  | 0, _ => none
  | fuel + 1, cs =>
    match jsonSkipWs cs with
    | [] => none
    | c :: rest =>
      if c = 'n' then
        match rest with
        | 'u' :: 'l' :: 'l' :: r => some (.null, r)
        | _ => none
      else if c = 't' then
        match rest with
        | 'r' :: 'u' :: 'e' :: r => some (.bool true, r)
        | _ => none
      else if c = 'f' then
        match rest with
        | 'a' :: 'l' :: 's' :: 'e' :: r => some (.bool false, r)
        | _ => none
      else if c = '"' then
        match jsonParseString (rest.length + 1) rest with
        | some (s, r) => some (.str (String.mk s), r)
        | none => none
      else if c = '[' then
        match jsonSkipWs rest with
        | ']' :: r => some (.arr [], r)
        | _ => jsonParseArr fuel rest []
      else if c = lbrace then
        match jsonSkipWs rest with
        | c2 :: r => if c2 = rbrace then some (.obj [], r) else jsonParseObj fuel rest []
        | [] => none
      else if c = '-' ∨ (digitVal c).isSome then
        match jsonParseNumber (c :: rest) with
        | some ((f, v), r) => some (.num f v, r)
        | none => none
      else none

/-- Elements of a JSON array after `[` (at least one element present). -/
def jsonParseArr : Nat → List Char → List Json → Option (Json × List Char)
  | 0, _, _ => none
  | fuel + 1, cs, acc =>
    match jsonParseVal fuel cs with
    | none => none
    | some (v, rest) =>
      match jsonSkipWs rest with
      | ',' :: r => jsonParseArr fuel r (acc ++ [v])
      | c :: r => if c = ']' then some (.arr (acc ++ [v]), r) else none
      | [] => none

/-- Members of a JSON object after the opening brace (at least one present). -/
def jsonParseObj : Nat → List Char → List (String × Json) → Option (Json × List Char)
  | 0, _, _ => none
  | fuel + 1, cs, acc =>
    match jsonSkipWs cs with
    | c :: rest =>
      if c = '"' then
        match jsonParseString (rest.length + 1) rest with
        | some (key, r1) =>
          match jsonSkipWs r1 with
          | ':' :: r2 =>
            match jsonParseVal fuel r2 with
            | some (v, r3) =>
              match jsonSkipWs r3 with
              | ',' :: r4 => jsonParseObj fuel r4 (acc ++ [(String.mk key, v)])
              | c2 :: r4 =>
                if c2 = rbrace then some (.obj (acc ++ [(String.mk key, v)]), r4) else none
              | [] => none
            | none => none
          | _ => none
        | none => none
      else none
    | [] => none

end

/-- Models `serde_json::from_str::<serde_json::Value>`: parse a complete JSON
document, rejecting trailing non-whitespace input. -/
def json_from_str (s : String) : Option Json :=
  match jsonParseVal (2 * s.data.length + 4) s.data with
  | some (v, rest) => if jsonSkipWs rest = [] then some v else none
  | none => none

/-! ### The entry store (`src/endpoints.rs`)

`struct Character` with its exact fields; `usize`/`u32` become `Nat` and the
`f32` field keeps the parsed decimal value as a `JNumber` (float
rounding/formatting is not modelled — no claim depends on it).  The JSON file behind the store is modelled as the parsed
`List Character`, passed in and returned; endpoints that can `panic!`
(`characters[0..limit]` out of bounds, `.last().unwrap()` on an empty vector)
return `Option.none` in that case. -/

structure Character where
  id : Nat
  rank : String
  trend : String
  season : Nat
  episode : Nat
  name : String
  start : Nat
  total_votes : String
  average_rating : JNumber
deriving DecidableEq

/-- serde struct deserialization: a known field must occur exactly once among
the object's members (missing field and duplicate field are both errors);
unknown members are ignored (no `deny_unknown_fields`). -/
def jGetUnique (fields : List (String × Json)) (key : String) : Option Json :=
  match fields.filter (fun p => p.1 = key) with
  | [p] => some p.2
  | _ => none

/-- serde `usize`/`u32` deserialization: only an integer token, non-negative
(float tokens and negatives are type errors; an integer token always has
`exp10 = 0`). -/
def jAsNat : Option Json → Option Nat
  | some (.num false v) => if 0 ≤ v.mantissa then some v.mantissa.toNat else none
  | _ => none

def jAsString : Option Json → Option String
  | some (.str s) => some s
  | _ => none

/-- serde `f32` deserialization: any number token. -/
def jAsNumber : Option Json → Option JNumber
  | some (.num _ v) => some v
  | _ => none

/-- Models `serde_json::from_str::<Character>`. -/
def character_from_str (s : String) : Option Character :=
  match json_from_str s with
  | some (.obj fields) => do
    let id ← jAsNat (jGetUnique fields "id")
    let rank ← jAsString (jGetUnique fields "rank")
    let trend ← jAsString (jGetUnique fields "trend")
    let season ← jAsNat (jGetUnique fields "season")
    let episode ← jAsNat (jGetUnique fields "episode")
    let name ← jAsString (jGetUnique fields "name")
    let start ← jAsNat (jGetUnique fields "start")
    let total_votes ← jAsString (jGetUnique fields "total_votes")
    let average_rating ← jAsNumber (jGetUnique fields "average_rating")
    some ⟨id, rank, trend, season, episode, name, start, total_votes, average_rating⟩
  | _ => none

/-- Models `serde_json::from_str::<PatchName>` (the struct local to
`patch_entry_name`, fields `id: usize` and `name: String`). -/
def patch_name_from_str (s : String) : Option (Nat × String) :=
  match json_from_str s with
  | some (.obj fields) => do
    let id ← jAsNat (jGetUnique fields "id")
    let nm ← jAsString (jGetUnique fields "name")
    some (id, nm)
  | _ => none

/-- Models `serde_json::from_str::<Delete>` (the struct local to `delete_entry`,
single field `id: usize`). -/
def delete_from_str (s : String) : Option Nat :=
  match json_from_str s with
  | some (.obj fields) => jAsNat (jGetUnique fields "id")
  | _ => none

/-! #### Serialization (`serde_json::to_string` on `Vec<Character>`)

Compact JSON with the struct's field order.  The `f32` field is rendered by
decimal expansion of its `JNumber` (Rust prints floats via shortest-round-trip
formatting; the two agree on the simple decimal values the store holds, and no
claim depends on the digits). -/

def escapeJsonChar (c : Char) : String :=
  if c = '"' then "\\\""
  else if c = '\\' then "\\\\"
  else if c = '\n' then "\\n"
  else if c = '\r' then "\\r"
  else if c = '\t' then "\\t"
  else if c = Char.ofNat 8 then "\\b"
  else if c = Char.ofNat 12 then "\\f"
  else if c.toNat < 0x20 then
    "\\u00" ++ String.mk [(if c.toNat / 16 < 10 then Char.ofNat (c.toNat / 16 + 48) else Char.ofNat (c.toNat / 16 + 87)),
      (if c.toNat % 16 < 10 then Char.ofNat (c.toNat % 16 + 48) else Char.ofNat (c.toNat % 16 + 87))]
  else String.mk [c]

def renderJsonString (s : String) : String :=
  "\"" ++ String.join (s.data.map escapeJsonChar) ++ "\""

/-- Left-pad a digit string with zeros to width `k`. -/
def padZeros (s : String) (k : Nat) : String :=
  String.mk (List.replicate (k - s.data.length) '0') ++ s

/-- Decimal rendering of a `JNumber`, always with at least one fractional
digit (`8.1`, `5.0`), as Rust prints the store's float field. -/
def renderJNumber (v : JNumber) : String :=
  let sign := if v.mantissa < 0 then "-" else ""
  let m := v.mantissa.natAbs
  if 0 ≤ v.exp10 then sign ++ toString (m * 10 ^ v.exp10.toNat) ++ ".0"
  else
    let k := (-v.exp10).toNat
    sign ++ toString (m / 10 ^ k) ++ "." ++ padZeros (toString (m % 10 ^ k)) k

def serialize_character (c : Character) : String :=
  "\x7b\"id\":" ++ toString c.id ++
  ",\"rank\":" ++ renderJsonString c.rank ++
  ",\"trend\":" ++ renderJsonString c.trend ++
  ",\"season\":" ++ toString c.season ++
  ",\"episode\":" ++ toString c.episode ++
  ",\"name\":" ++ renderJsonString c.name ++
  ",\"start\":" ++ toString c.start ++
  ",\"total_votes\":" ++ renderJsonString c.total_votes ++
  ",\"average_rating\":" ++ renderJNumber c.average_rating ++ "\x7d"

def serialize_characters (cs : List Character) : String :=
  "[" ++ String.intercalate "," (cs.map serialize_character) ++ "]"

/-- Embeds `endpoints::get_entries`: serialize the first `limit` records, all of them
when `limit == 0`.  The slice `&characters[0..limit]` panics (`none`) when
`limit` exceeds the number of records. -/
def get_entries (limit : Nat) (characters : List Character) : Option String :=
  if limit = 0 then some (serialize_characters characters)
  else if limit ≤ characters.length then some (serialize_characters (characters.take limit))
  else none

/-- Embeds `endpoints::post_entry`: parse the body as a full `Character`, overwrite
its id with `characters.last().unwrap().id + 1` (panics — `none` — on an empty
store) and append it.  A body that does not deserialize yields `"Error"` and
leaves the store unchanged. -/
def post_entry (req : String) (characters : List Character) :
    Option (List Character × String) :=
  match character_from_str req with
  | some new_character =>
    match characters.getLast? with
    | none => none
    | some lastc =>
      some (characters ++ [{ new_character with id := lastc.id + 1 }], "Success!")
  | none => some (characters, "Error")

/-- Embeds `endpoints::put_entry`: replace the first record whose id matches the
body's id (the source's insert-then-remove pair is exactly a replacement at
the found index). -/
def put_entry (req : String) (characters : List Character) : List Character × String :=
  match character_from_str req with
  | some new_character =>
    match List.findIdx? (fun c => c.id = new_character.id) characters with
    | some idx => (characters.set idx new_character, "Success!")
    | none => (characters, "Error")
  | none => (characters, "Error")

/-- First-match name update used by `patch_entry_name`
(`characters.iter_mut().find(|c| c.id == patch.id)`). -/
def patch_first (id : Nat) (nm : String) : List Character → Option (List Character)
  | [] => none
  | c :: rest =>
    if c.id = id then some ({ c with name := nm } :: rest)
    else (patch_first id nm rest).map (c :: ·)

/-- Embeds `endpoints::patch_entry_name`. -/
def patch_entry_name (req : String) (characters : List Character) :
    List Character × String :=
  match patch_name_from_str req with
  | some (pid, pname) =>
    match patch_first pid pname characters with
    | some cs2 => (cs2, "Success")
    | none => (characters, "Character not found")
  | none => (characters, "Format not valid")

/-- Embeds `endpoints::delete_entry`: remove the first record whose id matches (the
source matches the `Option` from `position` with `Ok`/`Err` constructor names,
a slip for `Some`/`None`; the evident intent is modelled). -/
def delete_entry (req : String) (characters : List Character) :
    List Character × String :=
  match delete_from_str req with
  | some did =>
    match List.findIdx? (fun r => r.id = did) characters with
    | some element_index => (characters.eraseIdx element_index, "Success!")
    | none => (characters, "Error")
  | none => (characters, "Error")

/-! ### Dates (models the external `chrono` crate)

Instants are Unix timestamps (`Int` seconds); "now" is passed in explicitly.
`days_from_civil`/`civil_from_days` are the standard proleptic-Gregorian
conversions (Hinnant's algorithms, matching chrono's arithmetic). -/

def days_from_civil (y : Int) (m d : Nat) : Int :=
  let y := if m ≤ 2 then y - 1 else y
  let era := (if 0 ≤ y then y else y - 399) / 400
  let yoe := (y - era * 400).toNat
  let doy := (153 * (if m > 2 then m - 3 else m + 9) + 2) / 5 + d - 1
  let doe := yoe * 365 + yoe / 4 - yoe / 100 + doy
  era * 146097 + (doe : Int) - 719468

def monthNames : List String :=
  ["Jan", "Feb", "Mar", "Apr", "May", "Jun", "Jul", "Aug", "Sep", "Oct", "Nov", "Dec"]

def dayNames : List String :=
  ["Sun", "Mon", "Tue", "Wed", "Thu", "Fri", "Sat"]

def lowerChar (c : Char) : Char :=
  if 'A' ≤ c ∧ c ≤ 'Z' then Char.ofNat (c.toNat + 32) else c

def lowerStr (s : String) : String := String.mk (s.data.map lowerChar)

def monthIdx (tok : String) : Option Nat :=
  (List.findIdx? (fun m => lowerStr m = lowerStr tok) monthNames).map (· + 1)

def isDayName (tok : String) : Bool :=
  dayNames.any (fun d => lowerStr d = lowerStr tok)

def allDigits (cs : List Char) : Bool := cs.all (fun c => (digitVal c).isSome)

def isLeapYear (y : Int) : Bool := y % 4 = 0 ∧ (y % 100 ≠ 0 ∨ y % 400 = 0)

def daysInMonth (y : Int) (m : Nat) : Nat :=
  if m = 2 then (if isLeapYear y then 29 else 28)
  else if m = 4 ∨ m = 6 ∨ m = 9 ∨ m = 11 then 30 else 31

/-- Obsolete RFC 2822 zone names and numeric `±HHMM` offsets, in seconds. -/
def parseZoneOffset (tok : String) : Option Int :=
  if tok = "GMT" ∨ tok = "UT" ∨ tok = "UTC" ∨ tok = "Z" then some 0
  else if tok = "EST" then some (-5 * 3600)
  else if tok = "EDT" then some (-4 * 3600)
  else if tok = "CST" then some (-6 * 3600)
  else if tok = "CDT" then some (-5 * 3600)
  else if tok = "MST" then some (-7 * 3600)
  else if tok = "MDT" then some (-6 * 3600)
  else if tok = "PST" then some (-8 * 3600)
  else if tok = "PDT" then some (-7 * 3600)
  else
    match tok.data with
    | s :: h1 :: h2 :: m1 :: m2 :: [] =>
      if (s = '+' ∨ s = '-') ∧ allDigits [h1, h2, m1, m2] then
        let hh := digitsToNatAux 0 [(digitVal h1).getD 0, (digitVal h2).getD 0]
        let mm := digitsToNatAux 0 [(digitVal m1).getD 0, (digitVal m2).getD 0]
        if hh ≤ 23 ∧ mm ≤ 59 then
          some ((if s = '-' then -1 else 1) * ((hh : Int) * 3600 + mm * 60))
        else none
      else none
    | _ => none

def parseTimeTok (tok : String) : Option (Nat × Nat × Nat) :=
  match (split_on_char ':' tok).map String.data with
  | [h, m] =>
    if allDigits h ∧ allDigits m ∧ h.length = 2 ∧ m.length = 2 then
      some (digitsToNatAux 0 (h.map (fun c => (digitVal c).getD 0)),
        digitsToNatAux 0 (m.map (fun c => (digitVal c).getD 0)), 0)
    else none
  | [h, m, s] =>
    if allDigits h ∧ allDigits m ∧ allDigits s ∧ h.length = 2 ∧ m.length = 2 ∧ s.length = 2 then
      some (digitsToNatAux 0 (h.map (fun c => (digitVal c).getD 0)),
        digitsToNatAux 0 (m.map (fun c => (digitVal c).getD 0)),
        digitsToNatAux 0 (s.map (fun c => (digitVal c).getD 0)))
    else none
  | _ => none

def parseYearTok (tok : String) : Option Int :=
  if allDigits tok.data then
    let n := digitsToNatAux 0 (tok.data.map (fun c => (digitVal c).getD 0))
    if tok.data.length = 4 then some n
    else if tok.data.length = 3 then some (n + 1900)
    else if tok.data.length = 2 then some (if n < 50 then n + 2000 else n + 1900)
    else none
  else none

/-- Models `chrono::DateTime::parse_from_rfc2822`: `[day-of-week ","] day month year
time zone`, yielding the Unix timestamp of the instant (the fixed offset is
applied, which is all the comparison in `is_cookie_expired` observes). -/
def parse_from_rfc2822 (s : String) : Option Int :=
  let toks := split_whitespace s
  let toks :=
    match toks with
    | t :: rest =>
      match t.data.reverse with
      | ',' :: pre => if isDayName (String.mk pre.reverse) then rest else toks
      | _ => toks
    | [] => toks
  match toks with
  | [dayTok, monTok, yearTok, timeTok, zoneTok] =>
    if allDigits dayTok.data ∧ 1 ≤ dayTok.data.length ∧ dayTok.data.length ≤ 2 then
      let d := digitsToNatAux 0 (dayTok.data.map (fun c => (digitVal c).getD 0))
      match monthIdx monTok, parseYearTok yearTok, parseTimeTok timeTok,
          parseZoneOffset zoneTok with
      | some m, some y, some (hh, mm, ss), some off =>
        if 1 ≤ d ∧ d ≤ daysInMonth y m ∧ hh ≤ 23 ∧ mm ≤ 59 ∧ ss ≤ 60 then
          some (days_from_civil y m d * 86400 + hh * 3600 + mm * 60 + ss - off)
        else none
      | _, _, _, _ => none
    else none
  | _ => none

/-! ### Cookies (`src/main.rs`) -/

/-- Embeds `is_cookie_expired`: a value that parses as an RFC 2822 date is expired
iff it lies before now; a value that fails to parse is never expired. -/
def is_cookie_expired (now : Int) (expiration_date : String) : Bool :=
  match parse_from_rfc2822 expiration_date with
  | some expiration => expiration < now
  | none => false

/-- The valid-cookie set `handle_connection` builds: every parsed cookie whose
value is not expired. -/
def valid_cookies (now : Int) (cookies : List (String × String)) :
    List (String × String) :=
  cookies.filter (fun p => !is_cookie_expired now p.2)

/-! ### Request parsing (`src/main.rs`, `parse_request`) -/

def SERVER_RESPONSE_OK : String := "HTTP/1.1 200 OK"

def SERVER_RESPONSE_ERROR : String := "HTTP/1.1 404 NOT FOUND"

/-- Embeds `handle_get`; `/entries` reads the store (`get_entries 0` — panic is
impossible at limit 0 but the `Option` is threaded uniformly). -/
def handle_get (uri : String) (store : List Character) : Option (String × String) :=
  match uri with
  | "/" => some (SERVER_RESPONSE_OK, "Welcome to the homepage!")
  | "/hello" => some (SERVER_RESPONSE_OK, "Hello, world!")
  | "/data" => some (SERVER_RESPONSE_OK, "Here is your data.")
  | "/entries" => (get_entries 0 store).map (fun s => (SERVER_RESPONSE_OK, s))
  | _ => some ("HTTP/1.1 404 NOT FOUND", "404 - Not Found")

/-- Embeds `handle_post` (store-mutating; `post_entry` can panic on an empty store). -/
def handle_post (uri body : String) (store : List Character) :
    Option (String × String × List Character) :=
  match uri with
  | "/submit" => (post_entry body store).map (fun r => (SERVER_RESPONSE_OK, r.2, r.1))
  | _ => some (SERVER_RESPONSE_ERROR, "404 - Not Found", store)

def handle_put (uri body : String) (store : List Character) :
    String × String × List Character :=
  match uri with
  | "/put_entry" =>
    match put_entry body store with
    | (st, msg) => (SERVER_RESPONSE_OK, msg, st)
  | _ => (SERVER_RESPONSE_ERROR, "404 - Not Found", store)

def handle_patch (uri body : String) (store : List Character) :
    String × String × List Character :=
  match uri with
  | "/patch_entry_name" =>
    match patch_entry_name body store with
    | (st, msg) => (SERVER_RESPONSE_OK, msg, st)
  | _ => (SERVER_RESPONSE_ERROR, "404 - Not Found", store)

def handle_delete (uri body : String) (store : List Character) :
    String × String × List Character :=
  match uri with
  | "/delete_entry" =>
    match delete_entry body store with
    | (st, msg) => (SERVER_RESPONSE_OK, msg, st)
  | _ => (SERVER_RESPONSE_ERROR, "404 - Not Found", store)

/-- The method dispatch of `handle_connection` (the router): the five handled
methods go to their handlers, anything else is `405`. -/
def route_request (method uri body : String) (store : List Character) :
    Option (String × String × List Character) :=
  match method with
  | "GET" => (handle_get uri store).map (fun p => (p.1, p.2, store))
  | "POST" => handle_post uri body store
  | "PUT" => some (handle_put uri body store)
  | "DELETE" => some (handle_delete uri body store)
  | "PATCH" => some (handle_patch uri body store)
  | _ => some ("HTTP/1.1 405 METHOD NOT ALLOWED", "405 - Method Not Allowed", store)

/-- A sample record; the id and name fields are the only ones the scenarios
discriminate on. -/
def sampleChar (i : Nat) (nm : String) : Character :=
  ⟨i, "28,818", "8", 1, 4, nm, 1999, "449", ⟨81, -1⟩⟩

/-- Modelled from the spec: the route table of §6 (method, path) pairs. -/
def specRouteTable : List (String × String) :=
  [("GET", "/"), ("GET", "/hello"), ("GET", "/entries"), ("POST", "/submit"),
    ("PUT", "/put_entry"), ("PATCH", "/patch_entry_name"), ("DELETE", "/delete_entry")]

/-- A valid single-record body for `POST /submit` scenarios. -/
def postBodySample : String :=
  "\x7b\"id\":0,\"rank\":\"1\",\"trend\":\"1\",\"season\":1,\"episode\":1,\"name\":\"Zoro\",\"start\":1999,\"total_votes\":\"1\",\"average_rating\":5.0\x7d"

/-- The record `postBodySample` deserializes to. -/
def postSampleChar : Character := ⟨0, "1", "1", 1, 1, "Zoro", 1999, "1", ⟨50, -1⟩⟩

/-- The body of the delete scenario. -/
def deleteBodyId2 : String := "\x7b\"id\":2\x7d"

/-- The body of the patch scenario. -/
def patchBodyX : String := "\x7b\"id\":1,\"name\":\"X\"\x7d"

/-- A valid full-record body whose id (9) matches no stored record, for the
PUT domain-failure scenario. -/
def putBodyId9 : String :=
  "\x7b\"id\":9,\"rank\":\"1\",\"trend\":\"1\",\"season\":1,\"episode\":1,\"name\":\"Zoro\",\"start\":1999,\"total_votes\":\"1\",\"average_rating\":5.0\x7d"

/-- A patch body whose id (9) matches no stored record. -/
def patchBodyId9 : String := "\x7b\"id\":9,\"name\":\"X\"\x7d"

/-! ## Theorems -/

theorem patch_first_countP_id (i : Nat) (nm : String) (j : Nat) :
    ∀ l l2 : List Character, patch_first i nm l = some l2 →
      l2.countP (fun c => c.id == j) = l.countP (fun c => c.id == j) := by
  intro l
  induction l with
  | nil => intro l2 h; simp [patch_first] at h
  | cons c rest ih =>
    intro l2 h
    simp only [patch_first] at h
    split at h
    · cases h
      simp [List.countP_cons]
    · rw [Option.map_eq_some'] at h
      obtain ⟨l2p, hl2p, rfl⟩ := h
      simp [List.countP_cons, ih l2p hl2p]

theorem patch_first_length (i : Nat) (nm : String) :
    ∀ l l2 : List Character, patch_first i nm l = some l2 → l2.length = l.length := by
  intro l
  induction l with
  | nil => intro l2 h; simp [patch_first] at h
  | cons c rest ih =>
    intro l2 h
    simp only [patch_first] at h
    split at h
    · cases h; simp
    · rw [Option.map_eq_some'] at h
      obtain ⟨l2p, hl2p, rfl⟩ := h
      simp [ih l2p hl2p]

theorem patch_first_idem (i : Nat) (nm : String) :
    ∀ l l2 : List Character, patch_first i nm l = some l2 →
      patch_first i nm l2 = some l2 := by
  intro l
  induction l with
  | nil => intro l2 h; simp [patch_first] at h
  | cons c rest ih =>
    intro l2 h
    simp only [patch_first] at h
    split at h
    · cases h
      simp only [patch_first]
      rw [if_pos (by assumption)]
    · rw [Option.map_eq_some'] at h
      obtain ⟨l2p, hl2p, rfl⟩ := h
      simp only [patch_first]
      rw [if_neg (by assumption), ih l2p hl2p, Option.map_some']

theorem patch_first_name (i : Nat) (nm : String) :
    ∀ l l2 : List Character, patch_first i nm l = some l2 →
      l.countP (fun c => c.id == i) = 1 →
      ∀ c ∈ l2, c.id = i → c.name = nm := by
  intro l
  induction l with
  | nil => intro l2 h; simp [patch_first] at h
  | cons c rest ih =>
    intro l2 h hcount x hx hxid
    simp only [patch_first] at h
    split at h
    · cases h
      rename_i hc
      rw [List.countP_cons] at hcount
      simp only [hc, beq_self_eq_true, if_pos] at hcount
      have hrest : rest.countP (fun c => c.id == i) = 0 := by omega
      rcases List.mem_cons.mp hx with rfl | hxr
      · rfl
      · exact absurd (by simpa using hxid)
          (by simpa using List.countP_eq_zero.mp hrest x hxr)
    · rename_i hc
      rw [Option.map_eq_some'] at h
      obtain ⟨l2p, hl2p, rfl⟩ := h
      rw [List.countP_cons] at hcount
      simp only [beq_iff_eq, hc, if_neg, ite_false] at hcount
      rcases List.mem_cons.mp hx with rfl | hxr
      · exact absurd hxid hc
      · exact ih l2p hl2p (by omega) x hxr hxid

theorem patch_first_of_mem (i : Nat) (nm : String) :
    ∀ l : List Character, (∃ c ∈ l, c.id = i) → ∃ l2, patch_first i nm l = some l2 := by
  intro l
  induction l with
  | nil => rintro ⟨c, hc, -⟩; simp at hc
  | cons c rest ih =>
    rintro ⟨x, hx, hxid⟩
    simp only [patch_first]
    by_cases hc : c.id = i
    · exact ⟨_, by rw [if_pos hc]⟩
    · rcases List.mem_cons.mp hx with rfl | hxr
      · exact absurd hxid hc
      · obtain ⟨l2, hl2⟩ := ih ⟨x, hxr, hxid⟩
        exact ⟨c :: l2, by rw [if_neg hc, hl2, Option.map_some']⟩

/-- Claim C10: `get_entries` is total exactly when the limit is `0` or at most
the store size; with `0 < n < limit` the slice `characters[0..limit]` is out
of bounds and the endpoint aborts (`none`); `get_entries 0` serializes every
record. -/
theorem claim10_get_entries_totality (limit : Nat) (characters : List Character) :
    (limit = 0 ∨ limit ≤ characters.length → (get_entries limit characters).isSome = true) ∧
    (0 < characters.length → characters.length < limit →
      get_entries limit characters = none) ∧
    get_entries 0 characters = some (serialize_characters characters) := by
  refine ⟨?_, ?_, ?_⟩
  · intro h
    unfold get_entries
    split_ifs with h1 h2 <;> simp_all
  · intro h1 h2
    unfold get_entries
    rw [if_neg (by omega), if_neg (by omega)]
  · simp [get_entries]

theorem claim10_get_entries_totality_witness :
    get_entries 2 [sampleChar 1 "a"] = none ∧
    get_entries 0 [sampleChar 1 "a"] = some (serialize_characters [sampleChar 1 "a"]) ∧
    (get_entries 1 [sampleChar 1 "a"]).isSome = true :=
  ⟨(claim10_get_entries_totality 2 [sampleChar 1 "a"]).2.1 (by decide) (by decide),
   (claim10_get_entries_totality 0 [sampleChar 1 "a"]).2.2,
   (claim10_get_entries_totality 1 [sampleChar 1 "a"]).1 (Or.inr (by decide))⟩

/-- Claim C5: every routed request whose handler reports a domain-level
failure still gets status line `HTTP/1.1 200 OK`, the failure appearing only
as a short diagnostic body string — on each matched mutating route
(`DELETE /delete_entry`, `PUT /put_entry`, `PATCH /patch_entry_name`,
`POST /submit`) the status is `200 OK` for every body and store; concretely,
on the store with ids `{1,2,3}` deleting id 2 yields `{1,3}` and
`"Success!"`, repeating the same delete leaves `{1,3}` and returns body
`"Error"` still with status `200 OK`, and the other routes answer their
domain failures (`"Error"`, `"Character not found"`) with `200 OK` too. -/
theorem claim5_delete_status_200 :
    (∀ body store, (handle_delete "/delete_entry" body store).1 = "HTTP/1.1 200 OK") ∧
    (∀ body store, (handle_put "/put_entry" body store).1 = "HTTP/1.1 200 OK") ∧
    (∀ body store, (handle_patch "/patch_entry_name" body store).1 = "HTTP/1.1 200 OK") ∧
    (∀ body store r, handle_post "/submit" body store = some r →
      r.1 = "HTTP/1.1 200 OK") ∧
    handle_delete "/delete_entry" deleteBodyId2
        [sampleChar 1 "a", sampleChar 2 "b", sampleChar 3 "c"] =
      ("HTTP/1.1 200 OK", "Success!", [sampleChar 1 "a", sampleChar 3 "c"]) ∧
    handle_delete "/delete_entry" deleteBodyId2 [sampleChar 1 "a", sampleChar 3 "c"] =
      ("HTTP/1.1 200 OK", "Error", [sampleChar 1 "a", sampleChar 3 "c"]) ∧
    handle_put "/put_entry" putBodyId9 [sampleChar 1 "a"] =
      ("HTTP/1.1 200 OK", "Error", [sampleChar 1 "a"]) ∧
    handle_patch "/patch_entry_name" patchBodyId9 [sampleChar 1 "a"] =
      ("HTTP/1.1 200 OK", "Character not found", [sampleChar 1 "a"]) ∧
    handle_post "/submit" "notjson" [sampleChar 1 "a"] =
      some ("HTTP/1.1 200 OK", "Error", [sampleChar 1 "a"]) := by
  refine ⟨?_, ?_, ?_, ?_, by rfl, by rfl, by rfl, by rfl, by rfl⟩
  · intro body store
    simp [handle_delete, SERVER_RESPONSE_OK]
  · intro body store
    simp [handle_put, SERVER_RESPONSE_OK]
  · intro body store
    simp [handle_patch, SERVER_RESPONSE_OK]
  · intro body store r hr
    simp only [handle_post, Option.map_eq_some'] at hr
    obtain ⟨p, -, rfl⟩ := hr
    rfl

theorem claim5_delete_status_200_witness :
    (("HTTP/1.1 200 OK", "Error", ([] : List Character)) : String × String × List Character).1 =
      "HTTP/1.1 200 OK" :=
  claim5_delete_status_200.2.2.2.1 "notjson" []
    ("HTTP/1.1 200 OK", "Error", []) (by rfl)

/-- Claim C9: a cookie value that does not parse as an RFC 2822 date is never
treated as expired, so the handler keeps it in the valid-cookie set; a value
is expired exactly when it parses to an instant before now. -/
theorem claim9_cookie_expiry (now : Int) (v : String) :
    (parse_from_rfc2822 v = none → is_cookie_expired now v = false) ∧
    (∀ nm cookies, parse_from_rfc2822 v = none → (nm, v) ∈ cookies →
      (nm, v) ∈ valid_cookies now cookies) ∧
    (is_cookie_expired now v = true ↔ ∃ t, parse_from_rfc2822 v = some t ∧ t < now) := by
  refine ⟨?_, ?_, ?_⟩
  · intro h
    simp [is_cookie_expired, h]
  · intro nm cookies h hmem
    simp [valid_cookies, List.mem_filter, hmem, is_cookie_expired, h]
  · unfold is_cookie_expired
    cases hp : parse_from_rfc2822 v with
    | none => simp
    | some t =>
      simp only [decide_eq_true_eq]
      constructor
      · intro h; exact ⟨t, rfl, h⟩
      · rintro ⟨t2, ht2, hlt⟩; cases ht2; exact hlt

theorem claim9_cookie_expiry_witness :
    is_cookie_expired 1760000000 "opaque_session_token_123" = false ∧
    ("session", "opaque_session_token_123") ∈
      valid_cookies 1760000000 [("session", "opaque_session_token_123")] :=
  ⟨(claim9_cookie_expiry 1760000000 "opaque_session_token_123").1 rfl,
   (claim9_cookie_expiry 1760000000 "opaque_session_token_123").2.1 "session"
     [("session", "opaque_session_token_123")] rfl (by simp)⟩

/-- Claim C2 is false as stated: `(GET, /data)` is not a route of the spec's
route table, yet the router answers `200 OK` with `"Here is your data."`
instead of `404`. -/
theorem claim2_counterexample :
    specRouteTable.contains ("GET", "/data") = false ∧
    route_request "GET" "/data" "" [] =
      some ("HTTP/1.1 200 OK", "Here is your data.", []) :=
  ⟨by decide, by rfl⟩

/-- Claim C2 (amended): for every `(method, path)` outside the code's handled
routes — the spec's table plus the additional `GET /data` route the code
serves — the router answers `404` with body `"404 - Not Found"`, and any
method outside {GET, POST, PUT, PATCH, DELETE} gets `405` with body
`"405 - Method Not Allowed"`. -/
theorem claim2_amended (method uri body : String) (store : List Character) :
    (method = "GET" → uri ≠ "/" → uri ≠ "/hello" → uri ≠ "/data" → uri ≠ "/entries" →
      route_request method uri body store =
        some ("HTTP/1.1 404 NOT FOUND", "404 - Not Found", store)) ∧
    (method = "POST" → uri ≠ "/submit" →
      route_request method uri body store =
        some ("HTTP/1.1 404 NOT FOUND", "404 - Not Found", store)) ∧
    (method = "PUT" → uri ≠ "/put_entry" →
      route_request method uri body store =
        some ("HTTP/1.1 404 NOT FOUND", "404 - Not Found", store)) ∧
    (method = "PATCH" → uri ≠ "/patch_entry_name" →
      route_request method uri body store =
        some ("HTTP/1.1 404 NOT FOUND", "404 - Not Found", store)) ∧
    (method = "DELETE" → uri ≠ "/delete_entry" →
      route_request method uri body store =
        some ("HTTP/1.1 404 NOT FOUND", "404 - Not Found", store)) ∧
    (method ≠ "GET" → method ≠ "POST" → method ≠ "PUT" → method ≠ "PATCH" →
      method ≠ "DELETE" →
      route_request method uri body store =
        some ("HTTP/1.1 405 METHOD NOT ALLOWED", "405 - Method Not Allowed", store)) := by
  refine ⟨?_, ?_, ?_, ?_, ?_, ?_⟩
  · rintro rfl h1 h2 h3 h4
    simp_all [route_request, handle_get, SERVER_RESPONSE_ERROR]
  · rintro rfl h1
    simp_all [route_request, handle_post, SERVER_RESPONSE_ERROR]
  · rintro rfl h1
    simp_all [route_request, handle_put, SERVER_RESPONSE_ERROR]
  · rintro rfl h1
    simp_all [route_request, handle_patch, SERVER_RESPONSE_ERROR]
  · rintro rfl h1
    simp_all [route_request, handle_delete, SERVER_RESPONSE_ERROR]
  · intro h1 h2 h3 h4 h5
    unfold route_request
    split <;> simp_all

theorem claim2_amended_witness :
    route_request "GET" "/nope" "" [] =
      some ("HTTP/1.1 404 NOT FOUND", "404 - Not Found", []) ∧
    route_request "POST" "/nope" "" [] =
      some ("HTTP/1.1 404 NOT FOUND", "404 - Not Found", []) ∧
    route_request "OPTIONS" "/" "" [] =
      some ("HTTP/1.1 405 METHOD NOT ALLOWED", "405 - Method Not Allowed", []) :=
  ⟨(claim2_amended "GET" "/nope" "" []).1 rfl (by decide) (by decide) (by decide)
      (by decide),
   (claim2_amended "POST" "/nope" "" []).2.1 rfl (by decide),
   (claim2_amended "OPTIONS" "/" "" []).2.2.2.2.2 (by decide) (by decide) (by decide)
      (by decide) (by decide)⟩

/-- Claim C1 is false as stated: `post_entry` assigns
`characters.last().unwrap().id + 1`, not `max(existing ids) + 1`.  On the
store with ids `[3, 1]` (maximum 3) the appended record receives id `2`, and
no record with id `max + 1 = 4` exists afterwards. -/
theorem claim1_counterexample :
    post_entry postBodySample [sampleChar 3 "a", sampleChar 1 "b"] =
      some ([sampleChar 3 "a", sampleChar 1 "b", { postSampleChar with id := 2 }],
        "Success!") ∧
    Nat.max (sampleChar 3 "a").id (sampleChar 1 "b").id + 1 = 4 ∧
    ([sampleChar 3 "a", sampleChar 1 "b",
        { postSampleChar with id := 2 }].map Character.id).contains 4 = false :=
  ⟨by rfl, by rfl, by decide⟩

/-- Claim C1 (amended): on a non-empty store, `POST /submit` with a body that
deserializes to a record appends it with id equal to the last record's id
plus one (this equals `max + 1` exactly when the ids are stored in ascending
order; on an empty store the source panics), and a subsequent `GET /entries`
serializes a store containing that record. -/
theorem claim1_amended (req : String) (store : List Character) (c lastc : Character)
    (hreq : character_from_str req = some c) (hlast : store.getLast? = some lastc) :
    post_entry req store =
      some (store ++ [{ c with id := lastc.id + 1 }], "Success!") ∧
    { c with id := lastc.id + 1 } ∈ store ++ [{ c with id := lastc.id + 1 }] ∧
    get_entries 0 (store ++ [{ c with id := lastc.id + 1 }]) =
      some (serialize_characters (store ++ [{ c with id := lastc.id + 1 }])) := by
  refine ⟨?_, by simp, by simp [get_entries]⟩
  unfold post_entry
  simp only [hreq, hlast]

theorem claim1_amended_witness :
    post_entry postBodySample [sampleChar 3 "a"] =
      some ([sampleChar 3 "a"] ++ [{ postSampleChar with id := (sampleChar 3 "a").id + 1 }],
        "Success!") ∧
    { postSampleChar with id := (sampleChar 3 "a").id + 1 } ∈
      [sampleChar 3 "a"] ++ [{ postSampleChar with id := (sampleChar 3 "a").id + 1 }] ∧
    get_entries 0
        ([sampleChar 3 "a"] ++ [{ postSampleChar with id := (sampleChar 3 "a").id + 1 }]) =
      some (serialize_characters
        ([sampleChar 3 "a"] ++ [{ postSampleChar with id := (sampleChar 3 "a").id + 1 }])) :=
  claim1_amended postBodySample [sampleChar 3 "a"] postSampleChar (sampleChar 3 "a")
    (by rfl) (by rfl)

/-- Claim C6 is false as stated: it quantifies over every store containing a
record with id 1, but on a store that already holds two id-1 records the
patch updates only the first, so after two applications the store still holds
two records with id 1 — not exactly one. -/
theorem claim6_counterexample :
    patch_entry_name patchBodyX [sampleChar 1 "A", sampleChar 1 "B"] =
      ([sampleChar 1 "X", sampleChar 1 "B"], "Success") ∧
    patch_entry_name patchBodyX [sampleChar 1 "X", sampleChar 1 "B"] =
      ([sampleChar 1 "X", sampleChar 1 "B"], "Success") ∧
    ¬ ([sampleChar 1 "X", sampleChar 1 "B"].countP (fun c => c.id == 1) = 1) :=
  ⟨by rfl, by rfl, by decide⟩

/-- Claim C6 (amended): on every store containing exactly one record with
id 1, applying `PATCH /patch_entry_name` with body `{"id":1,"name":"X"}`
twice yields a store that still contains exactly one id-1 record, whose name
is `"X"`; the second application changes nothing beyond the first and no
record is created or duplicated (the length is unchanged). -/
theorem claim6_amended (store : List Character)
    (huniq : store.countP (fun c => c.id == 1) = 1) :
    ∃ st1, patch_entry_name patchBodyX store = (st1, "Success") ∧
      patch_entry_name patchBodyX st1 = (st1, "Success") ∧
      st1.countP (fun c => c.id == 1) = 1 ∧
      (∀ c ∈ st1, c.id = 1 → c.name = "X") ∧
      st1.length = store.length := by
  have hparse : patch_name_from_str patchBodyX = some (1, "X") := by rfl
  have hmem : ∃ c ∈ store, c.id = 1 := by
    have hpos : 0 < store.countP (fun c => c.id == 1) := by omega
    obtain ⟨c, hc, hcp⟩ := List.countP_pos.mp hpos
    exact ⟨c, hc, by simpa using hcp⟩
  obtain ⟨st1, hst1⟩ := patch_first_of_mem 1 "X" store hmem
  refine ⟨st1, ?_, ?_, ?_, ?_, ?_⟩
  · unfold patch_entry_name
    simp only [hparse, hst1]
  · have hidem := patch_first_idem 1 "X" store st1 hst1
    unfold patch_entry_name
    simp only [hparse, hidem]
  · rw [patch_first_countP_id 1 "X" 1 store st1 hst1]
    exact huniq
  · exact patch_first_name 1 "X" store st1 hst1 huniq
  · exact patch_first_length 1 "X" store st1 hst1

theorem claim6_amended_witness :
    ([sampleChar 1 "A"].countP (fun c => c.id == 1) = 1) ∧
    (∃ st1, patch_entry_name patchBodyX [sampleChar 1 "A"] = (st1, "Success") ∧
      patch_entry_name patchBodyX st1 = (st1, "Success") ∧
      st1.countP (fun c => c.id == 1) = 1 ∧
      (∀ c ∈ st1, c.id = 1 → c.name = "X") ∧
      st1.length = [sampleChar 1 "A"].length) :=
  ⟨by decide, claim6_amended [sampleChar 1 "A"] (by decide)⟩
